import Mathlib

/-!
Verification development for the qqr repository (src/src/main.rs): a small
Rocket HTTP service that renders a text payload as a QR code image (PNG or
SVG).  The Rust source is shallowly embedded below.  Strings are modelled as
lists of characters (`Str`); request bodies are modelled at byte granularity
with one `Char` per byte (all concrete inputs used in the theorems are ASCII,
where this is exact).  The external collaborators (the qrcode crate, the
image crate and the Rocket framework) are modelled from their documented
behaviour exactly where the embedded code calls them; the QR module pattern
itself (data encoding, error correction, masking) is out of scope for every
claim, and all rendering lemmas are proved for arbitrary module patterns.
All arithmetic is in `Nat`; the u32 quantities involved (module counts up to
185, module sizes up to 35, pixel dimensions up to about 1100) are far below
2^32, so no overflow reduction is needed.
-/

/-- Rust strings and byte buffers are modelled as lists of characters. -/
abbrev Str := List Char

/-- Hexadecimal digit test used by percent decoding and by the colour
extraction function. -/
def isHex (c : Char) : Bool :=
  c.isDigit || (decide ('a' ≤ c) && decide (c ≤ 'f')) || (decide ('A' ≤ c) && decide (c ≤ 'F'))

/-- Numeric value of a hexadecimal digit. -/
def hexVal (c : Char) : Nat :=
  if c.isDigit then c.toNat - 48
  else if decide ('a' ≤ c) && decide (c ≤ 'f') then c.toNat - 87
  else if decide ('A' ≤ c) && decide (c ≤ 'F') then c.toNat - 55
  else 0

/-- Percent decoding, lossy flavour, as in rocket::http::RawStr::percent_decode_lossy
(backed by the percent_encoding crate): a percent sign followed by two hex
digits becomes the denoted byte; a percent sign not followed by two hex digits
is passed through literally.  The lossy part (replacing invalid UTF-8 byte
sequences) only matters for non-ASCII bytes and is outside the byte-per-char
model. -/
def percentDecodeLossy : Str → Str
  | [] => []
  | '%' :: a :: b :: rest =>
    if isHex a && isHex b then Char.ofNat (16 * hexVal a + hexVal b) :: percentDecodeLossy rest
    else '%' :: percentDecodeLossy (a :: b :: rest)
  | c :: rest => c :: percentDecodeLossy rest

/-- Split a form body at ampersands, as Rocket's form string parser does. -/
def splitAmp : Str → List Str
  | [] => [[]]
  | c :: rest =>
    if c = '&' then [] :: splitAmp rest
    else
      match splitAmp rest with
      | [] => [[c]]
      | s :: ss => (c :: s) :: ss

/-- Split one form field at its first equals sign into name and value, as
Rocket's ValueField::parse does; a field with no equals sign has an empty
value. -/
def splitEq : Str → Str × Str
  | [] => ([], [])
  | c :: rest =>
    if c = '=' then ([], rest)
    else
      let p := splitEq rest
      (c :: p.1, p.2)

/-- Decimal rendering of a natural number (the model of the numeric
interpolation done by format! in the SVG canvas). -/
def natStr (n : Nat) : Str :=
  if _h : n < 10 then [Nat.digitChar n]
  else natStr (n / 10) ++ [Nat.digitChar (n % 10)]
  termination_by n
  decreasing_by exact Nat.div_lt_self (by omega) (by omega)

/-!
## The Encoder: model of make_qrcode and its collaborators

The qrcode crate is the external collaborator of section 6 of the spec:
QrCode::new(content) builds a symbol at the smallest version whose capacity
holds the content, at the default error correction level M, and fails with
a DataTooLong error otherwise.  Version v has 17 + 4*v modules per side and
a quiet zone of 4 modules on each side.
-/

/-- Byte capacities of QR versions 1..40 at error correction level M, the
default level used by QrCode::new in the qrcode crate. -/
def qrCapacities : List Nat :=
  [14, 26, 42, 62, 84, 106, 122, 152, 180, 213, 251, 287, 331, 362, 412,
   450, 504, 560, 624, 666, 711, 779, 857, 911, 997, 1059, 1125, 1190, 1264,
   1370, 1452, 1538, 1628, 1722, 1809, 1911, 1989, 2099, 2213, 2331]

/-- Smallest QR version whose byte capacity holds a payload of the given
length, if any (model of the version search in QrCode::new). -/
def qrVersion (len : Nat) : Option Nat :=
  match qrCapacities.findIdx? (fun c => len ≤ c) with
  | some i => some (i + 1)
  | none => none

/-- Side length of the module matrix of a QR symbol of version v. -/
def modulesCount (v : Nat) : Nat := 17 + 4 * v

/-- Side length in modules including the default quiet zone of 4 modules on
each side, as used by the renderer of the qrcode crate. -/
def totalModules (v : Nat) : Nat := modulesCount v + 2 * 4

/-- Pixel (or SVG unit) size of one module chosen by
Renderer::min_dimensions: the ceiling of the requested minimum dimension
divided by the total module count. -/
def moduleSize (minDim total : Nat) : Nat := (minDim + total - 1) / total

/-- A constructed QR symbol: its version and its module pattern.  The module
pattern is computed by the external qrcode library (out of scope, spec
section 1); it is modelled as an unspecified fixed pattern, and every
rendering lemma below is proved for arbitrary module patterns. -/
structure QrMatrix where
  version : Nat
  modules : Nat → Nat → Bool

/-- Placeholder for the externally computed module pattern (no claim depends
on which modules are dark). -/
def qrModules (_content : Str) : Nat → Nat → Bool := fun _ _ => false

/-- Model of qrcode::QrCode::new: succeeds at the smallest fitting version,
fails when the payload exceeds the capacity of every version. -/
def QrCode.new (content : Str) : Option QrMatrix :=
  (qrVersion content.length).map fun v => { version := v, modules := qrModules content }

/-- Display text of the qrcode crate error returned when the payload exceeds
every capacity. -/
def dataTooLongMsg : Str := "data too long".toList

/-- A single channel (luma) pixel image, the result of
code.render::<Luma<u8>>(): each pixel holds one grey value, dark modules 0
and light pixels 255. -/
structure LumaImage where
  width : Nat
  height : Nat
  pixel : Nat → Nat → Nat

/-- The bytes produced by the Encoder: either the PNG serialization of a
luma image (the PNG byte stream itself is produced by the deterministic
encoder of the image crate and is kept symbolic: png img stands for the PNG
bytes that decode to img), or SVG markup given literally. -/
inductive ImageBytes
  | png (img : LumaImage)
  | svg (doc : Str)

/-- Model of code.render::<Luma<u8>>().min_dimensions(1000, 1000).build():
the image side is the total module count times the module size chosen for a
minimum dimension of 1000; a pixel is dark iff it lies inside the quiet
zone border on a dark module. -/
def renderLuma (code : QrMatrix) : LumaImage :=
  let n := totalModules code.version
  let ms := moduleSize 1000 n
  { width := n * ms
    height := n * ms
    pixel := fun x y =>
      let mx := x / ms
      let my := y / ms
      if 4 ≤ mx && mx < 4 + modulesCount code.version
          && 4 ≤ my && my < 4 + modulesCount code.version
          && code.modules (mx - 4) (my - 4)
      then 0 else 255 }

/-- Fixed fragments of the SVG document produced by the svg canvas of the
qrcode crate (modelled from that canvas: an xml and svg header carrying the
width, height and viewBox, a background path filled with the light colour
covering the whole canvas, and a foreground path filled with the dark colour
whose data lists the dark module squares). -/
def svgA : Str :=
  "<?xml version=\"1.0\" standalone=\"yes\"?><svg xmlns=\"http://www.w3.org/2000/svg\" version=\"1.1\" width=\"".toList

def svgB : Str := "\" height=\"".toList

def svgC : Str := "\" viewBox=\"0 0 ".toList

def svgD : Str := " ".toList

def svgE : Str := "\" shape-rendering=\"crispEdges\"><path fill=\"".toList

def svgF : Str := '"' :: " d=\"M0 0h".toList

def svgG : Str := "v".toList

def svgH : Str := "H0z\"/><path fill=\"".toList

def svgI : Str := '"' :: " d=\"".toList

def svgJ : Str := "\"/></svg>".toList

/-- One dark module square in the foreground path data (the appends are
written right-nested to ease reasoning). -/
def rectPath (x y m : Nat) : Str :=
  "M".toList ++ (natStr x ++ (" ".toList ++ (natStr y ++ ("h".toList ++ (natStr m ++
    ("v".toList ++ (natStr m ++ ("H".toList ++ (natStr x ++
    ("V".toList ++ (natStr y ++ "z".toList)))))))))))

/-- Coordinates of the dark modules of a symbol, in row order. -/
def darkCoords (code : QrMatrix) : List (Nat × Nat) :=
  (List.range (modulesCount code.version)).flatMap fun y =>
    (List.range (modulesCount code.version)).filterMap fun x =>
      if code.modules x y then some (x, y) else none

/-- Foreground path data: one square per dark module, offset by the quiet
zone and scaled by the module size. -/
def pathRects (coords : List (Nat × Nat)) (ms : Nat) : Str :=
  coords.foldr (fun xy acc => rectPath ((xy.1 + 4) * ms) ((xy.2 + 4) * ms) ms ++ acc) []

/-- Serialization of the SVG document for a square canvas of side w = h,
with the given dark and light fill colours and foreground path data (the
appends are written right-nested to ease reasoning). -/
def svgSerialize (w h : Nat) (dark light rects : Str) : Str :=
  svgA ++ (natStr w ++ (svgB ++ (natStr h ++ (svgC ++ (natStr w ++ (svgD ++ (natStr h ++
    (svgE ++ (light ++ (svgF ++ (natStr w ++ (svgG ++ (natStr h ++ (svgH ++
    (dark ++ (svgI ++ (rects ++ svgJ)))))))))))))))))

/-- Side length of the rendered SVG (and of the rendered luma image) of a
symbol of version v under min_dimensions(1000, 1000). -/
def renderSide (v : Nat) : Nat := totalModules v * moduleSize 1000 (totalModules v)

/-- Model of code.render with svg colours:
dark_color, light_color, min_dimensions(1000, 1000), build. -/
def renderSvg (code : QrMatrix) (dark light : Str) : Str :=
  let n := totalModules code.version
  let ms := moduleSize 1000 n
  svgSerialize (n * ms) (n * ms) dark light (pathRects (darkCoords code) ms)

/-- The two output formats of the source enum OutputFormat. -/
inductive OutputFormat
  | PNG
  | SVG
deriving DecidableEq

/-- Model of make_qrcode (main.rs lines 18-38): build the symbol with
QrCode::new, then render to a luma image written as PNG, or to SVG markup
with dark colour #000000 and light colour #ffffff, both under
min_dimensions(1000, 1000). -/
def make_qrcode (content : Str) (format : OutputFormat) : Except Str ImageBytes :=
  match QrCode.new content with
  | none => .error dataTooLongMsg
  | some code =>
    match format with
    | .PNG => .ok (.png (renderLuma code))
    | .SVG => .ok (.svg (renderSvg code "#000000".toList "#ffffff".toList))

/-!
## The HTTP layer: model of the Rocket surface used by main.rs
-/

/-- HTTP status codes used by the source. -/
inductive Status
  | badRequest
  | payloadTooLarge
  | unsupportedMediaType
  | methodNotAllowed
  | internalServerError
deriving DecidableEq

/-- Numeric code of a status. -/
def Status.code : Status → Nat
  | .badRequest => 400
  | .payloadTooLarge => 413
  | .unsupportedMediaType => 415
  | .methodNotAllowed => 405
  | .internalServerError => 500

/-- Request methods (HEAD and OPTIONS, which Rocket can answer on behalf of
handlers, are outside the model; the claims only involve GET, POST, PUT,
DELETE and PATCH). -/
inductive Method
  | get
  | post
  | put
  | delete
  | patch
deriving DecidableEq, BEq

/-- A media type as far as the source inspects it (its top and sub parts;
parameters are ignored by is_form and is_plain). -/
structure ContentType where
  top : Str
  sub : Str

/-- Model of rocket ContentType::is_form. -/
def ContentType.is_form (ct : ContentType) : Bool :=
  ct.top == "application".toList && ct.sub == "x-www-form-urlencoded".toList

/-- Model of rocket ContentType::is_plain. -/
def ContentType.is_plain (ct : ContentType) : Bool :=
  ct.top == "text".toList && ct.sub == "plain".toList

/-- An origin URI as Rocket stores it: the raw (still percent-encoded) path
and the raw query string when one is present. -/
structure Uri where
  path : Str
  query : Option Str

/-- Model of the Display instance of rocket Origin used by
req.uri().to_string(): the raw path, then a question mark and the raw query
when a query is present. -/
def uriToString (u : Uri) : Str :=
  u.path ++ (match u.query with | none => [] | some q => '?' :: q)

/-- An incoming request as far as the source inspects it.  contentType
models req.content_type(), the parsed Content-Type header. -/
structure Req where
  method : Method
  uri : Uri
  headers : List (Str × Str)
  contentType : Option ContentType

/-- Model of rocket HeaderMap::get: the values of every header whose name
matches case-insensitively, in order. -/
def headersGet (headers : List (Str × Str)) (name : Str) : List Str :=
  headers.filterMap fun p =>
    if p.1.map Char.toLower = name.map Char.toLower then some p.2 else none

/-- Model of get_format_from_accept (main.rs lines 64-69): SVG exactly when
some value of the Accept header equals the literal string image/svg+xml. -/
def get_format_from_accept (req : Req) : OutputFormat :=
  match (headersGet req.headers "Accept".toList).find? (fun x => x == "image/svg+xml".toList) with
  | some _ => .SVG
  | none => .PNG

/-- Model of rocket data::Capped: a value together with the flag telling
whether the whole stream was read before hitting the size limit. -/
structure Capped (α : Type) where
  value : α
  isComplete : Bool

/-- Model of Capped::into_inner: returns the value and discards the
completeness flag. -/
def Capped.into_inner {α : Type} (c : Capped α) : α := c.value

/-- The byte limit passed to body.open: 2.megabytes() in the ubyte crate is
the decimal unit, 2 * 10^6 = 2000000 bytes (the binary 2 MiB would be
2.mebibytes() = 2097152). -/
def DATA_LIMIT : Nat := 2000000

/-- Model of body.open(limit).into_string(): reads at most limit bytes and
returns them with the completeness flag; reaching the limit is not an error
(the Err branch of into_string only covers transport errors and invalid
UTF-8, neither of which arises in this byte-per-char model). -/
def dataOpenIntoString (body : Str) (limit : Nat) : Capped Str :=
  { value := body.take limit, isComplete := decide (body.length ≤ limit) }

/-- Model of rocket Form::parse for the derived struct Body with one
String field named input.  Form::parse takes an already percent-decoded
string (WHATWG URL section 5.1 minus its decoding steps): it splits the
body at ampersands and each field at its first equals sign, performing no
plus conversion and no percent-decoding of names or values (decoding is
the job of the separate parse_encoded path, which this code does not
call); it takes the value of the first field named input and fails when no
field is named input. -/
def formParse (body : Str) : Option Str :=
  (((splitAmp body).map fun f => splitEq f).find? fun kv =>
    kv.1 == "input".toList).map fun kv => kv.2

/-- Model of parse_post (main.rs lines 76-100): read at most 2 megabytes of
body and discard the completeness flag (into_inner); then, by declared
content type: a form body is parsed for its input field whose raw value is
then percent-decoded lossily, a plain text body is the payload as read, any
other content type is 415, a missing content type is 400. -/
def parse_post (req : Req) (body : Str) : Except Status Str :=
  let content := (dataOpenIntoString body DATA_LIMIT).into_inner
  match req.contentType with
  | some contentType =>
    if contentType.is_form then
      match formParse content with
      | some input => .ok (percentDecodeLossy input)
      | none => .error .badRequest
    else if contentType.is_plain then .ok content
    else .error .unsupportedMediaType
  | none => .error .badRequest

/-- A successful response body: the static page text or encoded image
bytes. -/
inductive BodyData
  | text (s : Str)
  | image (b : ImageBytes)

/-- Model of rocket route::Outcome as used by the source: a built response
(Content-Type header plus sized body, status 200 by default) or an error
status handed to the catcher (which carries no detail about the failure). -/
inductive Outcome
  | success (contentType : Str) (body : BodyData)
  | error (st : Status)

/-- Model of make_and_return_qrcode (main.rs lines 40-62), together with the
lines it writes to the operational log (eprintln!): an encoder failure is
logged with its cause and becomes Outcome::Error(InternalServerError); a
success becomes a response whose Content-Type is image/png or image/svg+xml
by format. -/
def make_and_return_qrcode (content : Str) (format : OutputFormat) : Outcome × List Str :=
  match make_qrcode content format with
  | .error e => (.error .internalServerError, ["Error: ".toList ++ e])
  | .ok code =>
    let contentType := match format with
      | .PNG => "image/png".toList
      | .SVG => "image/svg+xml".toList
    (.success contentType (.image code), [])

/-- The static index page of Server::index (main.rs lines 105-107). -/
def Server.index : Str :=
  "<!DOCTYPE html><html><head><title>qqr</title></head><body><form style=\"display:flex;flex-direction:column;flex;align-items:center;justify-content:center;width:100vw;height:100vh;row-gap:0.25em;\" action=\"\" method=\"post\"><textarea name=\"input\" style=\"width:50vw\"></textarea><input type=\"submit\" style=\"width: 25vw\"/></form></body></html>".toList

/-- Model of strip_prefix("/").unwrap_or(&uri) on the URI string. -/
def stripLeadingSlash (s : Str) : Str :=
  match s with
  | '/' :: rest => rest
  | s => s

/-- The payload extracted for a GET request away from the root (main.rs
lines 133-134): the request URI rendered to a string (raw path, plus the
raw query when present), with one leading slash stripped. -/
def getPayloadUri (req : Req) : Str :=
  let uri := uriToString req.uri
  stripLeadingSlash uri

/-- Model of Server::handle (main.rs lines 111-141): at the root path, GET
serves the index page, POST parses the body and encodes the payload (any
parse failure is turned into Outcome::Error(PayloadTooLarge)), anything
else is MethodNotAllowed; away from the root, GET encodes the stripped URI
string and anything else is MethodNotAllowed.  The second component is the
operational log. -/
def Server.handle (req : Req) (data : Str) : Outcome × List Str :=
  if req.uri.path = "/".toList then
    match req.method with
    | .get => (.success "text/html; charset=utf-8".toList (.text Server.index), [])
    | .post =>
      match parse_post req data with
      | .ok content => make_and_return_qrcode content (get_format_from_accept req)
      | .error _ => (.error .payloadTooLarge, [])
    | _ => (.error .methodNotAllowed, [])
  else
    match req.method with
    | .get => make_and_return_qrcode (getPayloadUri req) (get_format_from_accept req)
    | _ => (.error .methodNotAllowed, [])

/-- The two route shapes mounted by the source: the exact root path, and
the catch-all path pattern. -/
inductive RoutePat
  | root
  | anyPath

/-- Whether a route path pattern matches a request path: the root pattern
matches only the root path; the segments pattern of the source,
slash path dot dot, matches every path. -/
def patMatches : RoutePat → Str → Bool
  | .root, p => p == "/".toList
  | .anyPath, _ => true

/-- A mounted route: a method and a path pattern. -/
structure RouteM where
  method : Method
  pat : RoutePat

/-- The routes mounted by the Into Vec Route implementation for Server
(main.rs lines 144-151): GET on the catch-all pattern and POST on the
root. -/
def serverRoutes : List RouteM :=
  [{ method := .get, pat := .anyPath }, { method := .post, pat := .root }]

/-- A finished HTTP response: status, optional Content-Type, optional
body. -/
structure Resp where
  status : Nat
  contentType : Option Str
  body : Option BodyData

/-- Turning a handler outcome into a response: a built response has status
200; an error outcome is answered by the default catcher with the error
status and no detail. -/
def outcomeResp : Outcome → Resp
  | .success ct b => { status := 200, contentType := some ct, body := some b }
  | .error st => { status := st.code, contentType := none, body := none }

/-- Model of Rocket dispatch for the mounted routes: a request is handled
by Server::handle when some mounted route matches its method and path;
otherwise no route matches and the default catcher answers 404.  The second
component is the operational log. -/
def dispatch (req : Req) (data : Str) : Resp × List Str :=
  if serverRoutes.any (fun r => req.method == r.method && patMatches r.pat req.uri.path) then
    let h := Server.handle req data
    (outcomeResp h.1, h.2)
  else ({ status := 404, contentType := none, body := none }, [])

/-- Whether a payload is within the capacity of the modelled QR library. -/
def payloadFits (p : Str) : Bool := (qrVersion p.length).isSome

/-- Colours occurring in a piece of markup: every maximal run of hex digits
introduced by a hash sign, in order of occurrence.  This is the observation
function for the claim that the SVG output uses only two colours. -/
def colorsIn : Str → List Str
  | [] => []
  | c :: rest =>
    if c = '#' then ('#' :: rest.takeWhile isHex) :: colorsIn (rest.dropWhile isHex)
    else colorsIn rest
  termination_by s => s.length
  decreasing_by
  · have h : (rest.dropWhile isHex).length ≤ rest.length :=
      (List.dropWhile_sublist _).length_le
    simp only [List.length_cons]
    omega
  · simp [List.length_cons]

/-!
## Lemmas
-/

theorem digitChar_isDigit {k : Nat} (h : k < 10) : (Nat.digitChar k).isDigit = true := by
  interval_cases k <;> decide

theorem natStr_digits (n : Nat) : ∀ c ∈ natStr n, c.isDigit = true := by
  induction n using Nat.strong_induction_on with
  | _ n ih =>
    intro c hc
    rw [natStr] at hc
    by_cases h : n < 10
    · simp only [h, dite_true, List.mem_singleton] at hc
      exact hc ▸ digitChar_isDigit h
    · simp only [h, dite_false, List.mem_append, List.mem_singleton] at hc
      rcases hc with hc | hc
      · exact ih (n / 10) (Nat.div_lt_self (by omega) (by omega)) c hc
      · exact hc ▸ digitChar_isDigit (Nat.mod_lt _ (by omega))

theorem natStr_noHash (n : Nat) : '#' ∉ natStr n := by
  intro h
  have := natStr_digits n '#' h
  simp [Char.isDigit] at this

theorem colorsIn_nil : colorsIn [] = [] := by
  simp [colorsIn]

theorem colorsIn_cons_ne {c : Char} (rest : Str) (h : c ≠ '#') :
    colorsIn (c :: rest) = colorsIn rest := by
  rw [colorsIn]
  simp [h]

theorem colorsIn_append_noHash (a b : Str) (h : '#' ∉ a) :
    colorsIn (a ++ b) = colorsIn b := by
  induction a with
  | nil => simp
  | cons c cs ih =>
    have hc : c ≠ '#' := fun hcc => h (hcc ▸ List.mem_cons_self c cs)
    rw [List.cons_append, colorsIn_cons_ne _ hc]
    exact ih fun hm => h (List.mem_cons_of_mem _ hm)

theorem colorsIn_eq_nil (s : Str) (h : '#' ∉ s) : colorsIn s = [] := by
  have h2 := colorsIn_append_noHash s [] h
  rw [List.append_nil, colorsIn_nil] at h2
  exact h2

theorem takeWhile_hex_of_append {pre : Str} {d : Char} (t : Str)
    (hp : ∀ c ∈ pre, isHex c = true) (hd : isHex d = false) :
    (pre ++ d :: t).takeWhile isHex = pre ∧ (pre ++ d :: t).dropWhile isHex = d :: t := by
  induction pre with
  | nil => simp [List.takeWhile, List.dropWhile, hd]
  | cons c cs ih =>
    have hc : isHex c = true := hp c (List.mem_cons_self c cs)
    have ihh := ih fun x hx => hp x (List.mem_cons_of_mem _ hx)
    refine ⟨?_, ?_⟩
    · simp [List.cons_append, List.takeWhile_cons, hc, ihh.1]
    · simp [List.cons_append, List.dropWhile_cons, hc, ihh.2]

theorem colorsIn_hash {pre : Str} {d : Char} (t : Str)
    (hp : ∀ c ∈ pre, isHex c = true) (hd : isHex d = false) :
    colorsIn ('#' :: (pre ++ d :: t)) = ('#' :: pre) :: colorsIn (d :: t) := by
  rw [colorsIn]
  simp only [if_true]
  rw [(takeWhile_hex_of_append t hp hd).1, (takeWhile_hex_of_append t hp hd).2]

theorem le_mul_moduleSize (m : Nat) {n : Nat} (hn : 0 < n) : m ≤ n * moduleSize m n := by
  unfold moduleSize
  have hd := Nat.div_add_mod (m + n - 1) n
  have hm : (m + n - 1) % n < n := Nat.mod_lt _ hn
  generalize hq : (m + n - 1) / n = q at hd ⊢
  generalize hr : (m + n - 1) % n = r at hd hm
  generalize hk : n * q = k at hd ⊢
  omega

theorem totalModules_pos (v : Nat) : 0 < totalModules v := by
  unfold totalModules modulesCount
  omega

theorem renderSide_ge (v : Nat) : 1000 ≤ renderSide v := by
  unfold renderSide
  exact le_mul_moduleSize 1000 (totalModules_pos v)

theorem rectPath_noHash (x y m : Nat) : '#' ∉ rectPath x y m := by
  intro hmem
  unfold rectPath at hmem
  rcases List.mem_append.1 hmem with h | hmem
  · exact absurd h (by decide)
  rcases List.mem_append.1 hmem with h | hmem
  · exact natStr_noHash x h
  rcases List.mem_append.1 hmem with h | hmem
  · exact absurd h (by decide)
  rcases List.mem_append.1 hmem with h | hmem
  · exact natStr_noHash y h
  rcases List.mem_append.1 hmem with h | hmem
  · exact absurd h (by decide)
  rcases List.mem_append.1 hmem with h | hmem
  · exact natStr_noHash m h
  rcases List.mem_append.1 hmem with h | hmem
  · exact absurd h (by decide)
  rcases List.mem_append.1 hmem with h | hmem
  · exact natStr_noHash m h
  rcases List.mem_append.1 hmem with h | hmem
  · exact absurd h (by decide)
  rcases List.mem_append.1 hmem with h | hmem
  · exact natStr_noHash x h
  rcases List.mem_append.1 hmem with h | hmem
  · exact absurd h (by decide)
  rcases List.mem_append.1 hmem with h | hmem
  · exact natStr_noHash y h
  exact absurd hmem (by decide)

theorem pathRects_noHash (coords : List (Nat × Nat)) (ms : Nat) :
    '#' ∉ pathRects coords ms := by
  induction coords with
  | nil => simp [pathRects]
  | cons c cs ih =>
    intro hmem
    simp only [pathRects, List.foldr_cons] at hmem
    rcases List.mem_append.1 hmem with h | h
    · exact rectPath_noHash _ _ _ h
    · exact ih h

theorem colorsIn_light_block (T : Str) :
    colorsIn ("#ffffff".toList ++ (svgF ++ T))
      = "#ffffff".toList :: colorsIn ('"' :: (" d=\"M0 0h".toList ++ T)) := by
  show colorsIn ('#' :: ("ffffff".toList ++ ('"' :: (" d=\"M0 0h".toList ++ T)))) = _
  rw [colorsIn_hash _ (by decide) (by decide)]
  exact rfl

theorem colorsIn_dark_block (T : Str) :
    colorsIn ("#000000".toList ++ (svgI ++ T))
      = "#000000".toList :: colorsIn ('"' :: (" d=\"".toList ++ T)) := by
  show colorsIn ('#' :: ("000000".toList ++ ('"' :: (" d=\"".toList ++ T)))) = _
  rw [colorsIn_hash _ (by decide) (by decide)]
  exact rfl

theorem colorsIn_svgSerialize (w h : Nat) (rects : Str) (hr : '#' ∉ rects) :
    colorsIn (svgSerialize w h "#000000".toList "#ffffff".toList rects)
      = ["#ffffff".toList, "#000000".toList] := by
  unfold svgSerialize
  rw [colorsIn_append_noHash _ _ (by decide : '#' ∉ svgA)]
  rw [colorsIn_append_noHash _ _ (natStr_noHash w)]
  rw [colorsIn_append_noHash _ _ (by decide : '#' ∉ svgB)]
  rw [colorsIn_append_noHash _ _ (natStr_noHash h)]
  rw [colorsIn_append_noHash _ _ (by decide : '#' ∉ svgC)]
  rw [colorsIn_append_noHash _ _ (natStr_noHash w)]
  rw [colorsIn_append_noHash _ _ (by decide : '#' ∉ svgD)]
  rw [colorsIn_append_noHash _ _ (natStr_noHash h)]
  rw [colorsIn_append_noHash _ _ (by decide : '#' ∉ svgE)]
  rw [colorsIn_light_block]
  rw [colorsIn_cons_ne _ (show ('"' : Char) ≠ '#' by decide)]
  rw [colorsIn_append_noHash _ _ (by decide : '#' ∉ " d=\"M0 0h".toList)]
  rw [colorsIn_append_noHash _ _ (natStr_noHash w)]
  rw [colorsIn_append_noHash _ _ (by decide : '#' ∉ svgG)]
  rw [colorsIn_append_noHash _ _ (natStr_noHash h)]
  rw [colorsIn_append_noHash _ _ (by decide : '#' ∉ svgH)]
  rw [colorsIn_dark_block]
  rw [colorsIn_cons_ne _ (show ('"' : Char) ≠ '#' by decide)]
  rw [colorsIn_append_noHash _ _ (by decide : '#' ∉ " d=\"".toList)]
  rw [colorsIn_append_noHash _ _ hr]
  rw [colorsIn_eq_nil _ (by decide : '#' ∉ svgJ)]

theorem colorsIn_renderSvg (code : QrMatrix) :
    colorsIn (renderSvg code "#000000".toList "#ffffff".toList)
      = ["#ffffff".toList, "#000000".toList] := by
  unfold renderSvg
  exact colorsIn_svgSerialize _ _ _ (pathRects_noHash _ _)

theorem splitAmp_eq (s : Str) (h : '&' ∉ s) : splitAmp s = [s] := by
  induction s with
  | nil => simp [splitAmp]
  | cons c cs ih =>
    have hc : c ≠ '&' := fun hcc => h (hcc ▸ List.mem_cons_self c cs)
    have ihh := ih fun hm => h (List.mem_cons_of_mem _ hm)
    rw [splitAmp]
    simp [hc, ihh]

theorem splitEq_cons_ne (c : Char) (s : Str) (hc : c ≠ '=') :
    splitEq (c :: s) = (c :: (splitEq s).1, (splitEq s).2) := by
  rw [splitEq]
  simp [hc]

theorem splitEq_cons_eq (s : Str) : splitEq ('=' :: s) = ([], s) := by
  rw [splitEq]
  simp

theorem splitEq_input (v : Str) :
    splitEq ("input=".toList ++ v) = ("input".toList, v) := by
  show splitEq ('i' :: 'n' :: 'p' :: 'u' :: 't' :: '=' :: v) = _
  rw [splitEq_cons_ne _ _ (by decide), splitEq_cons_ne _ _ (by decide),
    splitEq_cons_ne _ _ (by decide), splitEq_cons_ne _ _ (by decide),
    splitEq_cons_ne _ _ (by decide), splitEq_cons_eq]
  rfl

theorem find_beq_isSome (l : List Str) (t : Str) :
    ((l.find? fun x => x == t).isSome = true) ↔ t ∈ l := by
  rw [List.find?_isSome]
  constructor
  · rintro ⟨x, hx, hbeq⟩
    rw [beq_iff_eq] at hbeq
    exact hbeq ▸ hx
  · intro hm
    exact ⟨t, hm, beq_self_eq_true t⟩

/-!
## Claims
-/

/-- Counterexample to claim C3: for GET away from the root, the payload
handed to the Encoder is the raw request URI with its leading slash
stripped; for the path /a%20b it is a%20b, still containing a
percent-encoded sequence, and for the path /x with query q=1 it is x?q=1,
so it is neither percent-decoded nor free of the query string. -/
theorem get_payload_not_decoded_cex :
    getPayloadUri ⟨.get, ⟨"/a%20b".toList, none⟩, [], none⟩ = "a%20b".toList
    ∧ getPayloadUri ⟨.get, ⟨"/x".toList, some "q=1".toList⟩, [], none⟩ = "x?q=1".toList
    ∧ "a%20b".toList ≠ "a b".toList := by
  refine ⟨by decide, by decide, by decide⟩

/-- Claim C3 (amended): for every GET request to a non-root path, the
payload passed to the Encoder is exactly the request URI rendered to a
string (the raw path, plus the raw query when one is present) with its
leading slash stripped; no percent-decoding is applied and the query string
is not removed. -/
theorem get_payload_raw_uri (req : Req) (data : Str)
    (hm : req.method = .get) (hp : req.uri.path ≠ "/".toList) :
    Server.handle req data
      = make_and_return_qrcode (stripLeadingSlash (uriToString req.uri))
          (get_format_from_accept req) := by
  unfold Server.handle
  rw [if_neg hp, hm]
  rfl

/-- Witness for the amended claim C3 at a concrete GET request. -/
theorem get_payload_raw_uri_witness :
    ("/w".toList ≠ "/".toList)
    ∧ Server.handle ⟨.get, ⟨"/w".toList, none⟩, [], none⟩ []
      = make_and_return_qrcode (stripLeadingSlash (uriToString ⟨"/w".toList, none⟩))
          (get_format_from_accept ⟨.get, ⟨"/w".toList, none⟩, [], none⟩) :=
  ⟨by decide, get_payload_raw_uri _ _ rfl (by decide)⟩

/-- Counterexample to claim C4: a PUT request to the root and a DELETE
request to another path are answered with status 404, not 405: no mounted
route matches them, so the handler (whose 405 arms would apply) is never
reached and the default catcher answers 404. -/
theorem put_request_404_cex :
    (dispatch ⟨.put, ⟨"/".toList, none⟩, [], none⟩ []).1.status = 404
    ∧ (dispatch ⟨.delete, ⟨"/x".toList, none⟩, [], none⟩ []).1.status ≠ 405 := by
  refine ⟨by decide, by decide⟩

/-- Claim C4 (amended): for every request whose method is neither GET nor
POST, to any path, no mounted route matches, so the response status is 404
(from the default catcher), not 405; the MethodNotAllowed arms of
Server::handle are unreachable through the mounted routes. -/
theorem non_get_post_404 (req : Req) (data : Str)
    (h : req.method ≠ .get ∧ req.method ≠ .post) :
    (dispatch req data).1.status = 404 := by
  have hany : (serverRoutes.any fun r =>
      req.method == r.method && patMatches r.pat req.uri.path) = false := by
    cases hm : req.method with
    | get => exact absurd hm h.1
    | post => exact absurd hm h.2
    | put =>
      simp [serverRoutes, (show (Method.put == Method.get) = false from rfl),
        (show (Method.put == Method.post) = false from rfl)]
    | delete =>
      simp [serverRoutes, (show (Method.delete == Method.get) = false from rfl),
        (show (Method.delete == Method.post) = false from rfl)]
    | patch =>
      simp [serverRoutes, (show (Method.patch == Method.get) = false from rfl),
        (show (Method.patch == Method.post) = false from rfl)]
  simp [dispatch, hany]

/-- Witness for the amended claim C4 at a concrete PATCH request. -/
theorem non_get_post_404_witness :
    (Method.patch ≠ Method.get ∧ Method.patch ≠ Method.post)
    ∧ (dispatch ⟨.patch, ⟨"/y".toList, none⟩, [], none⟩ []).1.status = 404 :=
  ⟨by decide, non_get_post_404 _ _ ⟨by decide, by decide⟩⟩

/-- Claim C5: for every request reaching the Encoder, the output format is
Vector (SVG) exactly when some value of the Accept header is the literal
string image/svg+xml (a membership test over whole header values, not a
substring or MIME-quality check); otherwise the format is Raster (PNG). -/
theorem accept_header_svg_iff (req : Req) :
    (get_format_from_accept req = .SVG ↔
      "image/svg+xml".toList ∈ headersGet req.headers "Accept".toList)
    ∧ (get_format_from_accept req = .PNG ↔
      "image/svg+xml".toList ∉ headersGet req.headers "Accept".toList) := by
  have key := find_beq_isSome (headersGet req.headers "Accept".toList) "image/svg+xml".toList
  unfold get_format_from_accept
  cases hf : (headersGet req.headers "Accept".toList).find?
      (fun x => x == "image/svg+xml".toList) with
  | none =>
    rw [hf] at key
    simp only [Option.isSome_none, Bool.false_eq_true, false_iff] at key
    refine ⟨⟨fun hsv => ?_, fun hmem => absurd hmem key⟩, ⟨fun _ => key, fun _ => rfl⟩⟩
    exact absurd hsv (by decide)
  | some x =>
    rw [hf] at key
    simp only [Option.isSome_some, true_iff] at key
    refine ⟨⟨fun _ => key, fun _ => rfl⟩, ⟨fun hpn => ?_, fun hnm => absurd key hnm⟩⟩
    exact absurd (show OutputFormat.SVG = OutputFormat.PNG from hpn) (by decide)

/-- Claim C8: whenever the Encoder fails, the handler answers
Outcome::Error with status InternalServerError (code 500), carrying no
detail about the failure, and one diagnostic line holding the underlying
cause is written to the operational log. -/
theorem encoder_failure_500_logged (p : Str) (f : OutputFormat) (e : Str)
    (h : make_qrcode p f = .error e) :
    make_and_return_qrcode p f = (.error .internalServerError, ["Error: ".toList ++ e])
    ∧ Status.code .internalServerError = 500 := by
  constructor
  · unfold make_and_return_qrcode
    rw [h]
  · rfl

/-- Witness for claim C8 at a concrete payload that exceeds every QR
capacity, so that the symbol constructor fails. -/
theorem encoder_failure_500_logged_witness :
    make_and_return_qrcode (List.replicate 2332 'a') .PNG
      = (.error .internalServerError, ["Error: ".toList ++ dataTooLongMsg])
    ∧ Status.code .internalServerError = 500 :=
  encoder_failure_500_logged _ _ _ (by
    have hv : qrVersion 2332 = none := by decide
    unfold make_qrcode QrCode.new
    rw [List.length_replicate, hv]
    rfl)



/-- Claim C9: the Encoder is deterministic: it is a pure function of the
payload and the output format alone (the embedding is a total function with
no state parameter, reflecting that the source consults no external state
and uses no randomness; the PNG and SVG serializations of its collaborators
are themselves deterministic), so identical arguments give identical
output bytes. -/
theorem encode_deterministic (p₁ p₂ : Str) (f₁ f₂ : OutputFormat)
    (hp : p₁ = p₂) (hf : f₁ = f₂) : make_qrcode p₁ f₁ = make_qrcode p₂ f₂ := by
  subst hp
  subst hf
  rfl

/-- Witness for claim C9 at a concrete payload and format. -/
theorem encode_deterministic_witness :
    "qr".toList = "qr".toList
    ∧ make_qrcode "qr".toList .PNG = make_qrcode "qr".toList .PNG :=
  ⟨rfl, encode_deterministic _ _ _ _ rfl rfl⟩

/-- Claim C6: for every payload within the QR library capacity, the raster
encoding succeeds with a single channel (luma) image whose width and height
are both at least 1000 pixels, written as PNG, and the response carries the
Content-Type image/png. -/
theorem raster_min_dims (p : Str) (hfit : payloadFits p = true) :
    ∃ img : LumaImage,
      make_qrcode p .PNG = .ok (.png img)
      ∧ 1000 ≤ img.width ∧ 1000 ≤ img.height
      ∧ make_and_return_qrcode p .PNG
          = (.success "image/png".toList (.image (.png img)), []) := by
  unfold payloadFits at hfit
  cases hv : qrVersion p.length with
  | none => rw [hv] at hfit; simp at hfit
  | some v =>
    have hmk : make_qrcode p .PNG = .ok (.png (renderLuma ⟨v, qrModules p⟩)) := by
      unfold make_qrcode QrCode.new
      rw [hv]
      rfl
    refine ⟨renderLuma ⟨v, qrModules p⟩, hmk, ?_, ?_, ?_⟩
    · have hs := renderSide_ge v
      unfold renderSide at hs
      simpa [renderLuma] using hs
    · have hs := renderSide_ge v
      unfold renderSide at hs
      simpa [renderLuma] using hs
    · unfold make_and_return_qrcode
      rw [hmk]

/-- Witness for claim C6 at a concrete payload. -/
theorem raster_min_dims_witness :
    payloadFits "hello".toList = true
    ∧ ∃ img : LumaImage,
        make_qrcode "hello".toList .PNG = .ok (.png img)
        ∧ 1000 ≤ img.width ∧ 1000 ≤ img.height
        ∧ make_and_return_qrcode "hello".toList .PNG
            = (.success "image/png".toList (.image (.png img)), []) :=
  ⟨by decide, raster_min_dims _ (by decide)⟩

/-- Claim C7: for every payload within the QR library capacity, the vector
encoding succeeds with SVG markup whose only colours are the dark fill
hex 000000 and the light fill hex ffffff, the rendered side is at least
1000 units, and the response carries the Content-Type image/svg+xml. -/
theorem vector_svg_colors (p : Str) (hfit : payloadFits p = true) :
    ∃ code : QrMatrix,
      QrCode.new p = some code
      ∧ make_qrcode p .SVG = .ok (.svg (renderSvg code "#000000".toList "#ffffff".toList))
      ∧ colorsIn (renderSvg code "#000000".toList "#ffffff".toList)
          = ["#ffffff".toList, "#000000".toList]
      ∧ (∀ c ∈ colorsIn (renderSvg code "#000000".toList "#ffffff".toList),
          c = "#000000".toList ∨ c = "#ffffff".toList)
      ∧ 1000 ≤ renderSide code.version
      ∧ make_and_return_qrcode p .SVG
          = (.success "image/svg+xml".toList
              (.image (.svg (renderSvg code "#000000".toList "#ffffff".toList))), []) := by
  unfold payloadFits at hfit
  cases hv : qrVersion p.length with
  | none => rw [hv] at hfit; simp at hfit
  | some v =>
    have hnew : QrCode.new p = some ⟨v, qrModules p⟩ := by
      unfold QrCode.new
      rw [hv]
      rfl
    have hmk : make_qrcode p .SVG
        = .ok (.svg (renderSvg ⟨v, qrModules p⟩ "#000000".toList "#ffffff".toList)) := by
      unfold make_qrcode
      rw [hnew]
    refine ⟨⟨v, qrModules p⟩, hnew, hmk, colorsIn_renderSvg _, ?_, renderSide_ge v, ?_⟩
    · intro c hc
      rw [colorsIn_renderSvg] at hc
      simp only [List.mem_cons, List.not_mem_nil, or_false] at hc
      tauto
    · unfold make_and_return_qrcode
      rw [hmk]

/-- Witness for claim C7 at a concrete payload. -/
theorem vector_svg_colors_witness :
    payloadFits "world".toList = true
    ∧ ∃ code : QrMatrix,
        QrCode.new "world".toList = some code
        ∧ make_qrcode "world".toList .SVG
            = .ok (.svg (renderSvg code "#000000".toList "#ffffff".toList))
        ∧ colorsIn (renderSvg code "#000000".toList "#ffffff".toList)
            = ["#ffffff".toList, "#000000".toList]
        ∧ (∀ c ∈ colorsIn (renderSvg code "#000000".toList "#ffffff".toList),
            c = "#000000".toList ∨ c = "#ffffff".toList)
        ∧ 1000 ≤ renderSide code.version
        ∧ make_and_return_qrcode "world".toList .SVG
            = (.success "image/svg+xml".toList
                (.image (.svg (renderSvg code "#000000".toList "#ffffff".toList))), []) :=
  ⟨by decide, vector_svg_colors _ (by decide)⟩

theorem formParse_input (v : Str) (hamp : '&' ∉ v) :
    formParse ("input=".toList ++ v) = some v := by
  have hb : '&' ∉ ("input=".toList ++ v) := by
    intro hm
    rcases List.mem_append.1 hm with h | h
    · exact absurd h (by decide)
    · exact hamp h
  unfold formParse
  rw [splitAmp_eq _ hb]
  simp only [List.map_cons, List.map_nil, splitEq_input]
  simp [List.find?]

/-- Counterexample to claim C10: the form body input=a%2520b yields the
payload a%20b, not a b: Form::parse hands the field value over with no
decoding, so only the explicit percent_decode_lossy call decodes it, once;
there is no double decode. -/
theorem form_input_double_decode_cex :
    parse_post ⟨.post, ⟨"/".toList, none⟩, [],
        some ⟨"application".toList, "x-www-form-urlencoded".toList⟩⟩ "input=a%2520b".toList
      = .ok ("a%20b".toList)
    ∧ "a%20b".toList ≠ "a b".toList :=
  ⟨rfl, by decide⟩

/-- Claim C10 (amended): for every POST form body of the shape input equals
v (with no ampersand in v), Rocket Form::parse hands the field value over
undecoded, and the payload is v percent-decoded exactly once, by the
explicit percent_decode_lossy call, so a form body input=a%2520b yields
the payload a%20b, and a literal percent sign in the intended payload
survives when percent-encoded once. -/
theorem form_input_single_decoded (req : Req) (v : Str)
    (hct : req.contentType
      = some ⟨"application".toList, "x-www-form-urlencoded".toList⟩)
    (hamp : '&' ∉ v) (hlen : ("input=".toList ++ v).length ≤ DATA_LIMIT) :
    parse_post req ("input=".toList ++ v)
      = .ok (percentDecodeLossy v) := by
  simp only [parse_post, dataOpenIntoString, Capped.into_inner, hct]
  rw [List.take_of_length_le hlen]
  rw [show ContentType.is_form ⟨"application".toList, "x-www-form-urlencoded".toList⟩ = true
    from by decide]
  rw [formParse_input v hamp]
  simp

/-- Witness for the amended claim C10: the form body input=a%2520b yields
the payload a%20b. -/
theorem form_input_single_decoded_witness :
    ('&' ∉ "a%2520b".toList)
    ∧ parse_post ⟨.post, ⟨"/".toList, none⟩, [],
          some ⟨"application".toList, "x-www-form-urlencoded".toList⟩⟩ "input=a%2520b".toList
      = .ok ("a%20b".toList) :=
  ⟨by decide, by
    have h := form_input_single_decoded
      ⟨.post, ⟨"/".toList, none⟩, [],
        some ⟨"application".toList, "x-www-form-urlencoded".toList⟩⟩
      "a%2520b".toList rfl (by decide) (by decide)
    exact h.trans rfl⟩

/-- Claim C1 (code bug): parse_post itself distinguishes the three failure
classes exactly as the claim says (unsupported media type 415, malformed
form 400, missing content type 400), but Server::handle discards the status
carried by every parse_post error and answers Status::PayloadTooLarge, so
all three failure classes are answered 413 instead of 415 / 400 / 400. -/
theorem post_parse_failure_always_413 :
    parse_post ⟨.post, ⟨"/".toList, none⟩, [],
        some ⟨"application".toList, "json".toList⟩⟩ "x".toList
      = .error .unsupportedMediaType
    ∧ (dispatch ⟨.post, ⟨"/".toList, none⟩, [],
        some ⟨"application".toList, "json".toList⟩⟩ "x".toList).1.status = 413
    ∧ parse_post ⟨.post, ⟨"/".toList, none⟩, [],
        some ⟨"application".toList, "x-www-form-urlencoded".toList⟩⟩ "foo=bar".toList
      = .error .badRequest
    ∧ (dispatch ⟨.post, ⟨"/".toList, none⟩, [],
        some ⟨"application".toList, "x-www-form-urlencoded".toList⟩⟩ "foo=bar".toList).1.status
      = 413
    ∧ parse_post ⟨.post, ⟨"/".toList, none⟩, [], none⟩ "x".toList = .error .badRequest
    ∧ (dispatch ⟨.post, ⟨"/".toList, none⟩, [], none⟩ "x".toList).1.status = 413 :=
  ⟨rfl, rfl, rfl, rfl, rfl, rfl⟩


theorem make_qrcode_err_gen (s : Str) (f : OutputFormat) (hs : QrCode.new s = none) :
    make_qrcode s f = .error dataTooLongMsg := by
  unfold make_qrcode
  rw [hs]

theorem handle_post_ok_gen (req : Req) (data payload : Str)
    (hpath : req.uri.path = "/".toList) (hmethod : req.method = .post)
    (hparse : parse_post req data = .ok payload) :
    Server.handle req data
      = make_and_return_qrcode payload (get_format_from_accept req) := by
  unfold Server.handle
  rw [if_pos hpath, hmethod, hparse]

theorem mar_err_gen (payload : Str) (f : OutputFormat)
    (hmk : make_qrcode payload f = .error dataTooLongMsg) :
    make_and_return_qrcode payload f
      = (.error .internalServerError, ["Error: ".toList ++ dataTooLongMsg]) := by
  unfold make_and_return_qrcode
  rw [hmk]

theorem dispatch_routed_gen (req : Req) (data : Str) (out : Outcome × List Str)
    (hroute : (serverRoutes.any fun r =>
      req.method == r.method && patMatches r.pat req.uri.path) = true)
    (hh : Server.handle req data = out) :
    dispatch req data = (outcomeResp out.1, out.2) := by
  unfold dispatch
  rw [if_pos hroute, hh]

/-- Claim C2 (code bug): a plain text POST body of 3000000 bytes (larger
than 2 MiB) is not answered 413: the read is capped at 2000000 bytes
(2.megabytes() is the decimal unit, not 2 MiB) and Capped::into_inner
discards the completeness flag, so parse_post succeeds with the silently
truncated 2000000 byte payload; the request is then answered 500 (the
truncated payload exceeds the QR capacity), not 413. -/
theorem oversized_body_truncated_not_413 :
    parse_post ⟨.post, ⟨"/".toList, none⟩, [], some ⟨"text".toList, "plain".toList⟩⟩
        (List.replicate 3000000 'a')
      = .ok (List.replicate 2000000 'a')
    ∧ (dispatch ⟨.post, ⟨"/".toList, none⟩, [], some ⟨"text".toList, "plain".toList⟩⟩
        (List.replicate 3000000 'a')).1.status = 500 := by
  have hmin : DATA_LIMIT ⊓ 3000000 = 2000000 := by
    unfold DATA_LIMIT
    omega
  have htake : (List.replicate 3000000 'a').take DATA_LIMIT = List.replicate 2000000 'a' := by
    rw [List.take_replicate, hmin]
  have hdata : (dataOpenIntoString (List.replicate 3000000 'a') DATA_LIMIT).into_inner
      = List.replicate 2000000 'a' := htake
  have hp : parse_post ⟨.post, ⟨"/".toList, none⟩, [], some ⟨"text".toList, "plain".toList⟩⟩
      (List.replicate 3000000 'a') = .ok (List.replicate 2000000 'a') := by
    simp only [parse_post, hdata]
    rw [show ContentType.is_form ⟨"text".toList, "plain".toList⟩ = false from by decide]
    rw [show ContentType.is_plain ⟨"text".toList, "plain".toList⟩ = true from by decide]
    rw [if_neg (by decide : ¬(false = true))]
    rw [if_pos (rfl : true = true)]
  have hv : qrVersion 2000000 = none := by decide
  have hq : QrCode.new (List.replicate 2000000 'a') = none := by
    unfold QrCode.new
    rw [List.length_replicate, hv]
    rfl
  have hfmt : get_format_from_accept
      ⟨.post, ⟨"/".toList, none⟩, [], some ⟨"text".toList, "plain".toList⟩⟩ = .PNG := by
    decide
  have hh : Server.handle ⟨.post, ⟨"/".toList, none⟩, [], some ⟨"text".toList, "plain".toList⟩⟩
      (List.replicate 3000000 'a')
      = (.error .internalServerError, ["Error: ".toList ++ dataTooLongMsg]) := by
    rw [handle_post_ok_gen _ _ _ rfl rfl hp, hfmt]
    exact mar_err_gen _ _ (make_qrcode_err_gen _ _ hq)
  have hd := dispatch_routed_gen _ _ _ (by decide) hh
  refine ⟨hp, ?_⟩
  rw [hd]
  rfl
